import Mathlib

/-!
Shallow embedding of the nom-date-parsers library (src/src/numeric.rs,
src/src/error.rs, src/src/i18n.rs, src/src/i18n/en.rs, src/src/i18n/ru.rs).

Input is modelled as a list of characters; every parser is a function from
the input to either (remaining input, value) or a typed error, mirroring
the crate's IResult type (src/src/types.rs).  All parsers in the crate use
the complete variants of the nom combinators, so the nom Err wrapper only
ever carries the Err::Error case; the embedding therefore collapses the
wrapper and keeps just the error payload.

The current local date (the chrono Local::now() collaborator) is passed to
the parsers that read it as an explicit argument, as suggested by the spec
(design note on the global clock reference).  Calendar dates (chrono
NaiveDate) are modelled as civil day numbers: the integer number of days
since 1970-01-01, with chrono's from_ymd_opt validity rules.
-/

namespace NomDateParsers

abbrev Input := List Char

/-- nom ErrorKind values that the embedded combinators can produce. -/
inductive NomKind where
  | Eof
  | Tag
  | Space
  | MapRes
  | Alt
deriving DecidableEq, Repr

/-- Rust std ParseIntError kinds reachable from str::parse::<u32> here. -/
inductive IntErr where
  | Empty
  | InvalidDigit
  | PosOverflow
deriving DecidableEq, Repr

/-- The crate's error enum, src/src/error.rs. -/
inductive PErr where
  | DayOutOfRange
  | MonthOutOfRange
  | NonExistentDate
  | ParseIntError (input : Input) (kind : NomKind) (e : IntErr)
  | Nom (input : Input) (kind : NomKind)
deriving DecidableEq, Repr

/-- nom's default ParseError::or for this error type (not overridden by the
crate): keep the later error. -/
def PErr.orUse (_self other : PErr) : PErr := other

/-- The crate's ParseError::append impl, src/src/error.rs lines 20-22:
the input and kind are ignored and the other error is returned unchanged. -/
def PErr.append (_input : Input) (_kind : NomKind) (other : PErr) : PErr := other

/-- Result of running a parser: IResult of src/src/types.rs. -/
inductive PResult (α : Type) where
  | ok (rest : Input) (val : α)
  | error (e : PErr)
deriving DecidableEq, Repr

abbrev Parser (α : Type) := Input → PResult α

/-- nom bytes::complete::take(n) on str input: takes n characters, failing
with ErrorKind::Eof when the input is shorter. -/
def takeN (n : Nat) : Parser Input := fun input =>
  if input.length < n then .error (.Nom input .Eof)
  else .ok (input.drop n) (input.take n)

/-- nom bytes::complete::tag for str input. -/
def tagC (t : Input) : Parser Input := fun input =>
  if input.take t.length = t then .ok (input.drop t.length) t
  else .error (.Nom input .Tag)

/-- Lowercasing as performed by Rust char::to_lowercase, restricted to the
ASCII letters and the Russian alphabet actually used by the crate's word
tables; every other character is left unchanged. -/
def lowerChar (c : Char) : Char :=
  if 'A' ≤ c ∧ c ≤ 'Z' then Char.ofNat (c.toNat + 32)
  else if 'А' ≤ c ∧ c ≤ 'Я' then Char.ofNat (c.toNat + 32)
  else if c = 'Ё' then 'ё'
  else c

/-- nom bytes::complete::tag_no_case for str input: case-insensitive match
of the tag, returning the consumed slice of the input. -/
def tagNoCase (t : Input) : Parser Input := fun input =>
  if (input.take t.length).map lowerChar = t.map lowerChar then
    .ok (input.drop t.length) (input.take t.length)
  else .error (.Nom input .Tag)

def isSpaceTab (c : Char) : Bool := c = ' ' || c = '\t'

/-- nom character::complete::space1: one or more space or tab characters,
failing with ErrorKind::Space on an empty run. -/
def space1 : Parser Input := fun input =>
  if input.takeWhile isSpaceTab = [] then .error (.Nom input .Space)
  else .ok (input.dropWhile isSpaceTab) (input.takeWhile isSpaceTab)

/-- nom combinator::map_res specialised to external errors of the
ParseIntError kind (the only use in the crate); on a conversion failure the
error records the input as it was before the inner parser consumed it. -/
def mapRes {α β : Type} (p : Parser α) (f : α → Except IntErr β) : Parser β :=
  fun input =>
    match p input with
    | .error e => .error e
    | .ok rest a =>
      match f a with
      | .ok b => .ok rest b
      | .error e => .error (.ParseIntError input .MapRes e)

/-- nom combinator::value: run the parser and replace its output. -/
def valueC {α β : Type} (b : β) (p : Parser α) : Parser β := fun input =>
  match p input with
  | .ok rest _ => .ok rest b
  | .error e => .error e

/-- Inner loop of nom branch::alt: each remaining alternative is tried on
the original input; failures are folded with ParseError::or, and once no
alternative is left the accumulated error goes through ParseError::append
with ErrorKind::Alt. -/
def altInner {α : Type} (input : Input) (err : PErr) :
    List (Parser α) → PResult α
  | [] => .error (PErr.append input .Alt err)
  | q :: qs =>
    match q input with
    | .error e => altInner input (err.orUse e) qs
    | res => res

/-- nom branch::alt over a first alternative and the list of later ones. -/
def altRun {α : Type} (p : Parser α) (ps : List (Parser α)) : Parser α :=
  fun input =>
    match p input with
    | .error e => altInner input e ps
    | res => res

def isDigitChar (c : Char) : Bool := '0' ≤ c && c ≤ '9'

def charToDigit (c : Char) : Nat := c.toNat - 48

def digitsToNat (s : Input) : Nat :=
  s.foldl (fun acc c => acc * 10 + charToDigit c) 0

/-- Rust str::parse::<u32> (core from_str_radix with radix 10): an optional
leading plus sign followed by at least one ASCII digit; a minus sign is an
invalid digit for an unsigned type; values beyond u32::MAX overflow. -/
def parseU32 (s : Input) : Except IntErr Nat :=
  match s with
  | [] => .error .Empty
  | c :: rest =>
    let digits := if c = '+' then rest else s
    if digits = [] then .error .InvalidDigit
    else if digits.all isDigitChar then
      if digitsToNat digits ≤ 4294967295 then .ok (digitsToNat digits)
      else .error .PosOverflow
    else .error .InvalidDigit

/-- Rust u32-to-i32 cast (the y4 as i32 conversions in src/src/numeric.rs). -/
def u32AsI32 (n : Nat) : Int :=
  if n < 2147483648 then (n : Int) else (n : Int) - 4294967296

/-! ### Calendar model (chrono NaiveDate as civil day numbers)

A NaiveDate is represented by its civil day number: the signed count of
days since 1970-01-01.  The conversions between (year, month, day) triples
and day numbers are the standard proleptic-Gregorian civil-calendar
algorithms, which agree with chrono's internal calendar. -/

abbrev NaiveDate := Int

def isLeapYear (y : Int) : Bool :=
  Int.emod y 4 = 0 && (Int.emod y 100 ≠ 0 || Int.emod y 400 = 0)

def daysInMonth (y : Int) (m : Nat) : Nat :=
  if m = 2 then (if isLeapYear y then 29 else 28)
  else if m = 4 ∨ m = 6 ∨ m = 9 ∨ m = 11 then 30
  else 31

/-- Civil day number of a (year, month, day) triple. -/
def daysFromCivil (y : Int) (m d : Nat) : Int :=
  let yAdj := if m ≤ 2 then y - 1 else y
  let era := Int.ediv yAdj 400
  let yoe := (yAdj - era * 400).toNat
  let mp := if 2 < m then m - 3 else m + 9
  let doy := (153 * mp + 2) / 5 + d - 1
  let doe := yoe * 365 + yoe / 4 - yoe / 100 + doy
  era * 146097 + (doe : Int) - 719468

/-- (year, month, day) triple of a civil day number. -/
def civilFromDays (z : Int) : Int × Nat × Nat :=
  let zs := z + 719468
  let era := Int.ediv zs 146097
  let doe := (zs - era * 146097).toNat
  let yoe := (doe - doe / 1460 + doe / 36524 - doe / 146096) / 365
  let y := (yoe : Int) + era * 400
  let doy := doe - (365 * yoe + yoe / 4 - yoe / 100)
  let mp := (5 * doy + 2) / 153
  let d := doy - (153 * mp + 2) / 5 + 1
  let m := if mp < 10 then mp + 3 else mp - 9
  (if m ≤ 2 then y + 1 else y, m, d)

def yearOf (z : NaiveDate) : Int := (civilFromDays z).1

def monthOf (z : NaiveDate) : Nat := (civilFromDays z).2.1

/-- chrono's year bounds for NaiveDate. -/
def minYear : Int := -262144

def maxYear : Int := 262143

/-- chrono NaiveDate::from_ymd_opt: some date when the (year, month, day)
triple is a real proleptic-Gregorian calendar date inside chrono's year
range, none otherwise. -/
def fromYmdOpt (y : Int) (m d : Nat) : Option NaiveDate :=
  if minYear ≤ y ∧ y ≤ maxYear ∧ 1 ≤ m ∧ m ≤ 12 ∧ 1 ≤ d ∧ d ≤ daysInMonth y m
  then some (daysFromCivil y m d)
  else none

/-- chrono Weekday. -/
inductive Weekday where
  | Mon
  | Tue
  | Wed
  | Thu
  | Fri
  | Sat
  | Sun
deriving DecidableEq, Repr

/-- The numeric cast chrono applies in weekday as i64: Mon = 0 .. Sun = 6
(the number of days from Monday). -/
def Weekday.toIdx : Weekday → Nat
  | .Mon => 0
  | .Tue => 1
  | .Wed => 2
  | .Thu => 3
  | .Fri => 4
  | .Sat => 5
  | .Sun => 6

/-- chrono NaiveDate::weekday as the Monday-based index: day number 0
(1970-01-01) was a Thursday, index 3. -/
def weekdayIdx (z : NaiveDate) : Nat := (Int.emod (z + 3) 7).toNat

/-! ### src/src/numeric.rs -/

/-- numeric_date_parts_separator, src/src/numeric.rs lines 16-20:
alt over tag "/", tag "-", tag "." and space1, discarding the output. -/
def numeric_date_parts_separator : Parser Unit := fun input =>
  match altRun (tagC ['/']) [tagC ['-'], tagC ['.'], space1] input with
  | .error e => .error e
  | .ok rest _ => .ok rest ()

/-- dd, src/src/numeric.rs lines 27-37: two digits preferred over one via
alt of map_res(take(2), parse) and map_res(take(1), parse), then the day
range check 1..=31. -/
def dd : Parser Nat := fun input =>
  match altRun (mapRes (takeN 2) parseU32) [mapRes (takeN 1) parseU32] input with
  | .error e => .error e
  | .ok rest v =>
    if v = 0 ∨ 31 < v then .error .DayOutOfRange else .ok rest v

/-- dd_only, src/src/numeric.rs lines 51-57: parse a day and build a date
from it with the current local month and year. -/
def dd_only (now : NaiveDate) : Parser (Option NaiveDate) := fun input =>
  match dd input with
  | .error e => .error e
  | .ok rest day => .ok rest (fromYmdOpt (yearOf now) (monthOf now) day)

/-- mm, src/src/numeric.rs lines 62-72: like dd with the month range
check 1..=12. -/
def mm : Parser Nat := fun input =>
  match altRun (mapRes (takeN 2) parseU32) [mapRes (takeN 1) parseU32] input with
  | .error e => .error e
  | .ok rest v =>
    if v = 0 ∨ 12 < v then .error .MonthOutOfRange else .ok rest v

/-- dd_mm, src/src/numeric.rs lines 75-77: separated_pair of dd and mm. -/
def dd_mm : Parser (Nat × Nat) := fun input =>
  match dd input with
  | .error e => .error e
  | .ok rest1 d =>
    match numeric_date_parts_separator rest1 with
    | .error e => .error e
    | .ok rest2 _ =>
      match mm rest2 with
      | .error e => .error e
      | .ok rest3 m => .ok rest3 (d, m)

/-- dd_mm_only, src/src/numeric.rs lines 90-95. -/
def dd_mm_only (now : NaiveDate) : Parser (Option NaiveDate) := fun input =>
  match dd_mm input with
  | .error e => .error e
  | .ok rest dm => .ok rest (fromYmdOpt (yearOf now) dm.2 dm.1)

/-- mm_dd, src/src/numeric.rs lines 98-100. -/
def mm_dd : Parser (Nat × Nat) := fun input =>
  match mm input with
  | .error e => .error e
  | .ok rest1 m =>
    match numeric_date_parts_separator rest1 with
    | .error e => .error e
    | .ok rest2 _ =>
      match dd rest2 with
      | .error e => .error e
      | .ok rest3 d => .ok rest3 (m, d)

/-- mm_dd_only, src/src/numeric.rs lines 113-120. -/
def mm_dd_only (now : NaiveDate) : Parser (Option NaiveDate) := fun input =>
  match mm_dd input with
  | .error e => .error e
  | .ok rest md => .ok rest (fromYmdOpt (yearOf now) md.1 md.2)

/-- y4, src/src/numeric.rs lines 125-127: map_res(take(4), parse). -/
def y4 : Parser Nat := mapRes (takeN 4) parseU32

/-- y4_mm_dd, src/src/numeric.rs lines 140-150. -/
def y4_mm_dd : Parser (Option NaiveDate) := fun input =>
  match y4 input with
  | .error e => .error e
  | .ok rest1 y =>
    match numeric_date_parts_separator rest1 with
    | .error e => .error e
    | .ok rest2 _ =>
      match mm rest2 with
      | .error e => .error e
      | .ok rest3 m =>
        match numeric_date_parts_separator rest3 with
        | .error e => .error e
        | .ok rest4 _ =>
          match dd rest4 with
          | .error e => .error e
          | .ok rest5 d => .ok rest5 (fromYmdOpt (u32AsI32 y) m d)

/-- dd_mm_y4, src/src/numeric.rs lines 163-173. -/
def dd_mm_y4 : Parser (Option NaiveDate) := fun input =>
  match dd input with
  | .error e => .error e
  | .ok rest1 d =>
    match numeric_date_parts_separator rest1 with
    | .error e => .error e
    | .ok rest2 _ =>
      match mm rest2 with
      | .error e => .error e
      | .ok rest3 m =>
        match numeric_date_parts_separator rest3 with
        | .error e => .error e
        | .ok rest4 _ =>
          match y4 rest4 with
          | .error e => .error e
          | .ok rest5 y => .ok rest5 (fromYmdOpt (u32AsI32 y) m d)

/-- mm_dd_y4, src/src/numeric.rs lines 186-196. -/
def mm_dd_y4 : Parser (Option NaiveDate) := fun input =>
  match mm input with
  | .error e => .error e
  | .ok rest1 m =>
    match numeric_date_parts_separator rest1 with
    | .error e => .error e
    | .ok rest2 _ =>
      match dd rest2 with
      | .error e => .error e
      | .ok rest3 d =>
        match numeric_date_parts_separator rest3 with
        | .error e => .error e
        | .ok rest4 _ =>
          match y4 rest4 with
          | .error e => .error e
          | .ok rest5 y => .ok rest5 (fromYmdOpt (u32AsI32 y) m d)

/-! ### src/src/i18n.rs -/

/-- naive_date_for_weekday, src/src/i18n.rs lines 12-16: today shifted by
(weekday as i64 - today.weekday() as i64) days.  The checked_add_signed
unwrap cannot fail for in-range dates and is modelled as plain addition. -/
def naive_date_for_weekday (weekday : Weekday) (now : NaiveDate) : NaiveDate :=
  now + ((weekday.toIdx : Int) - (weekdayIdx now : Int))

/-! ### src/src/i18n/en.rs -/

namespace en

def yesterdayWord : Input := "yesterday".toList

def tomorrowWord : Input := "tomorrow".toList

/-- en::yesterday, src/src/i18n/en.rs lines 33-38: value(today - 1 day,
tag_no_case "yesterday"). -/
def yesterday (now : NaiveDate) : Parser NaiveDate :=
  valueC (now - 1) (tagNoCase yesterdayWord)

/-- en::yesterday_opt, src/src/i18n/en.rs lines 63-65. -/
def yesterday_opt (now : NaiveDate) : Parser (Option NaiveDate) := fun input =>
  match yesterday now input with
  | .ok rest d => .ok rest (some d)
  | .error e => .error e

/-- en::tomorrow, src/src/i18n/en.rs lines 84-89. -/
def tomorrow (now : NaiveDate) : Parser NaiveDate :=
  valueC (now + 1) (tagNoCase tomorrowWord)

/-- en::tomorrow_opt, src/src/i18n/en.rs lines 114-116. -/
def tomorrow_opt (now : NaiveDate) : Parser (Option NaiveDate) := fun input =>
  match tomorrow now input with
  | .ok rest d => .ok rest (some d)
  | .error e => .error e

def monWord : Input := "mon".toList

def tueWord : Input := "tue".toList

def tuesWord : Input := "tues".toList

def wedWord : Input := "wed".toList

def thuWord : Input := "thu".toList

def thurWord : Input := "thur".toList

def thursWord : Input := "thurs".toList

def friWord : Input := "fri".toList

def satWord : Input := "sat".toList

def sunWord : Input := "sun".toList

/-- en::short_named_weekday, src/src/i18n/en.rs lines 138-151. -/
def short_named_weekday : Parser Weekday :=
  altRun (valueC Weekday.Mon (tagNoCase monWord))
    [valueC Weekday.Tue (tagNoCase tueWord),
     valueC Weekday.Tue (tagNoCase tuesWord),
     valueC Weekday.Wed (tagNoCase wedWord),
     valueC Weekday.Thu (tagNoCase thuWord),
     valueC Weekday.Thu (tagNoCase thurWord),
     valueC Weekday.Thu (tagNoCase thursWord),
     valueC Weekday.Fri (tagNoCase friWord),
     valueC Weekday.Sat (tagNoCase satWord),
     valueC Weekday.Sun (tagNoCase sunWord)]

def mondayWord : Input := "monday".toList

def tuesdayWord : Input := "tuesday".toList

def wednesdayWord : Input := "wednesday".toList

def thursdayWord : Input := "thursday".toList

def fridayWord : Input := "friday".toList

def saturdayWord : Input := "saturday".toList

def sundayWord : Input := "sunday".toList

/-- en::full_named_weekday, src/src/i18n/en.rs lines 173-183. -/
def full_named_weekday : Parser Weekday :=
  altRun (valueC Weekday.Mon (tagNoCase mondayWord))
    [valueC Weekday.Tue (tagNoCase tuesdayWord),
     valueC Weekday.Wed (tagNoCase wednesdayWord),
     valueC Weekday.Thu (tagNoCase thursdayWord),
     valueC Weekday.Fri (tagNoCase fridayWord),
     valueC Weekday.Sat (tagNoCase saturdayWord),
     valueC Weekday.Sun (tagNoCase sundayWord)]

/-- en::named_weekday, src/src/i18n/en.rs lines 199-201. -/
def named_weekday : Parser Weekday :=
  altRun full_named_weekday [short_named_weekday]

/-- en::current_named_weekday_only, src/src/i18n/en.rs lines 219-223:
map_res over named_weekday with an always-Ok closure computing
naive_date_for_weekday. -/
def current_named_weekday_only (now : NaiveDate) : Parser NaiveDate :=
  mapRes named_weekday (fun weekday => .ok (naive_date_for_weekday weekday now))

/-- en::current_named_weekday_only_opt, src/src/i18n/en.rs lines 249-251. -/
def current_named_weekday_only_opt (now : NaiveDate) :
    Parser (Option NaiveDate) := fun input =>
  match current_named_weekday_only now input with
  | .ok rest d => .ok rest (some d)
  | .error e => .error e

/-- en::bundle_dmy, src/src/i18n/en.rs lines 263-272. -/
def bundle_dmy (now : NaiveDate) : Parser (Option NaiveDate) :=
  altRun dd_mm_y4
    [dd_mm_only now, dd_only now, yesterday_opt now, tomorrow_opt now,
     current_named_weekday_only_opt now]

/-- en::bundle_mdy, src/src/i18n/en.rs lines 284-293. -/
def bundle_mdy (now : NaiveDate) : Parser (Option NaiveDate) :=
  altRun mm_dd_y4
    [mm_dd_only now, dd_only now, yesterday_opt now, tomorrow_opt now,
     current_named_weekday_only_opt now]

end en

/-! ### src/src/i18n/ru.rs -/

namespace ru

def dayBeforeYesterdayWord : Input := "позавчера".toList

def yesterdayWord : Input := "вчера".toList

def tomorrowWord : Input := "завтра".toList

def dayAfterTomorrowWord : Input := "послезавтра".toList

/-- ru::day_before_yesterday, src/src/i18n/ru.rs lines 33-38. -/
def day_before_yesterday (now : NaiveDate) : Parser NaiveDate :=
  valueC (now - 2) (tagNoCase dayBeforeYesterdayWord)

/-- ru::day_before_yesterday_opt, src/src/i18n/ru.rs lines 64-66. -/
def day_before_yesterday_opt (now : NaiveDate) :
    Parser (Option NaiveDate) := fun input =>
  match day_before_yesterday now input with
  | .ok rest d => .ok rest (some d)
  | .error e => .error e

/-- ru::yesterday, src/src/i18n/ru.rs lines 85-90. -/
def yesterday (now : NaiveDate) : Parser NaiveDate :=
  valueC (now - 1) (tagNoCase yesterdayWord)

/-- ru::yesterday_opt, src/src/i18n/ru.rs lines 116-118. -/
def yesterday_opt (now : NaiveDate) : Parser (Option NaiveDate) := fun input =>
  match yesterday now input with
  | .ok rest d => .ok rest (some d)
  | .error e => .error e

/-- ru::tomorrow, src/src/i18n/ru.rs lines 137-142. -/
def tomorrow (now : NaiveDate) : Parser NaiveDate :=
  valueC (now + 1) (tagNoCase tomorrowWord)

/-- ru::tomorrow_opt, src/src/i18n/ru.rs lines 168-170. -/
def tomorrow_opt (now : NaiveDate) : Parser (Option NaiveDate) := fun input =>
  match tomorrow now input with
  | .ok rest d => .ok rest (some d)
  | .error e => .error e

/-- ru::day_after_tomorrow, src/src/i18n/ru.rs lines 189-194. -/
def day_after_tomorrow (now : NaiveDate) : Parser NaiveDate :=
  valueC (now + 2) (tagNoCase dayAfterTomorrowWord)

/-- ru::day_after_tomorrow_opt, src/src/i18n/ru.rs lines 220-222. -/
def day_after_tomorrow_opt (now : NaiveDate) :
    Parser (Option NaiveDate) := fun input =>
  match day_after_tomorrow now input with
  | .ok rest d => .ok rest (some d)
  | .error e => .error e

def monShort : Input := "пн".toList

def tueShort : Input := "вт".toList

def wedShort : Input := "ср".toList

def thuShort : Input := "чт".toList

def friShort : Input := "пт".toList

def satShort : Input := "сб".toList

def sunShort : Input := "вс".toList

/-- ru::short_named_weekday, src/src/i18n/ru.rs lines 244-254. -/
def short_named_weekday : Parser Weekday :=
  altRun (valueC Weekday.Mon (tagNoCase monShort))
    [valueC Weekday.Tue (tagNoCase tueShort),
     valueC Weekday.Wed (tagNoCase wedShort),
     valueC Weekday.Thu (tagNoCase thuShort),
     valueC Weekday.Fri (tagNoCase friShort),
     valueC Weekday.Sat (tagNoCase satShort),
     valueC Weekday.Sun (tagNoCase sunShort)]

def monFull : Input := "понедельник".toList

def tueFull : Input := "вторник".toList

def wedFull : Input := "среда".toList

def thuFull : Input := "четверг".toList

def friFull : Input := "пятница".toList

def satFull : Input := "суббота".toList

def sunFull : Input := "воскресенье".toList

/-- ru::full_named_weekday, src/src/i18n/ru.rs lines 276-286. -/
def full_named_weekday : Parser Weekday :=
  altRun (valueC Weekday.Mon (tagNoCase monFull))
    [valueC Weekday.Tue (tagNoCase tueFull),
     valueC Weekday.Wed (tagNoCase wedFull),
     valueC Weekday.Thu (tagNoCase thuFull),
     valueC Weekday.Fri (tagNoCase friFull),
     valueC Weekday.Sat (tagNoCase satFull),
     valueC Weekday.Sun (tagNoCase sunFull)]

/-- ru::named_weekday, src/src/i18n/ru.rs lines 302-304. -/
def named_weekday : Parser Weekday :=
  altRun full_named_weekday [short_named_weekday]

/-- ru::current_named_weekday_only, src/src/i18n/ru.rs lines 322-326. -/
def current_named_weekday_only (now : NaiveDate) : Parser NaiveDate :=
  mapRes named_weekday (fun weekday => .ok (naive_date_for_weekday weekday now))

/-- ru::current_named_weekday_only_opt, src/src/i18n/ru.rs lines 352-354. -/
def current_named_weekday_only_opt (now : NaiveDate) :
    Parser (Option NaiveDate) := fun input =>
  match current_named_weekday_only now input with
  | .ok rest d => .ok rest (some d)
  | .error e => .error e

/-- ru::bundle, src/src/i18n/ru.rs lines 368-379. -/
def bundle (now : NaiveDate) : Parser (Option NaiveDate) :=
  altRun dd_mm_y4
    [dd_mm_only now, dd_only now, day_before_yesterday_opt now,
     yesterday_opt now, tomorrow_opt now, day_after_tomorrow_opt now,
     current_named_weekday_only_opt now]

end ru

/-! ### Helper notions and lemmas -/

instance {ε α : Type} [DecidableEq ε] [DecidableEq α] :
    DecidableEq (Except ε α) := fun x y =>
  match x, y with
  | .ok a, .ok b =>
    if h : a = b then .isTrue (by rw [h])
    else .isFalse (fun hc => h (Except.ok.inj hc))
  | .error a, .error b =>
    if h : a = b then .isTrue (by rw [h])
    else .isFalse (fun hc => h (Except.error.inj hc))
  | .ok _, .error _ => .isFalse (fun hc => Except.noConfusion hc)
  | .error _, .ok _ => .isFalse (fun hc => Except.noConfusion hc)

/-- The character of a decimal digit value. -/
def digitChar (n : Nat) : Char := Char.ofNat (48 + n)

theorem parseU32_one : ∀ a < 10, parseU32 [digitChar a] = .ok a := by decide

theorem parseU32_two : ∀ a < 10, ∀ b < 10,
    parseU32 [digitChar a, digitChar b] = .ok (10 * a + b) := by decide

theorem digitChar_not_spacetab : ∀ a < 10, isSpaceTab (digitChar a) = false := by
  decide

theorem takeN_cons1 (c : Char) (rest : Input) :
    takeN 1 (c :: rest) = .ok rest [c] := by
  have h : ¬ (c :: rest).length < 1 := by simp
  rw [takeN, if_neg h]
  rfl

theorem takeN_cons2 (c1 c2 : Char) (rest : Input) :
    takeN 2 (c1 :: c2 :: rest) = .ok rest [c1, c2] := by
  have h : ¬ (c1 :: c2 :: rest).length < 2 := by simp
  rw [takeN, if_neg h]
  rfl

theorem takeN_cons4 (c1 c2 c3 c4 : Char) (rest : Input) :
    takeN 4 (c1 :: c2 :: c3 :: c4 :: rest) = .ok rest [c1, c2, c3, c4] := by
  have h : ¬ (c1 :: c2 :: c3 :: c4 :: rest).length < 4 := by simp
  rw [takeN, if_neg h]
  rfl

theorem dd_digits2 (a b : Nat) (ha : a < 10) (hb : b < 10) (rest : Input) :
    dd (digitChar a :: digitChar b :: rest) =
      if 10 * a + b = 0 ∨ 31 < 10 * a + b then .error .DayOutOfRange
      else .ok rest (10 * a + b) := by
  have h2 : mapRes (takeN 2) parseU32 (digitChar a :: digitChar b :: rest) =
      .ok rest (10 * a + b) := by
    rw [mapRes, takeN_cons2]
    simp only [parseU32_two a ha b hb]
  simp only [dd, altRun, h2]

theorem mm_digits2 (a b : Nat) (ha : a < 10) (hb : b < 10) (rest : Input) :
    mm (digitChar a :: digitChar b :: rest) =
      if 10 * a + b = 0 ∨ 12 < 10 * a + b then .error .MonthOutOfRange
      else .ok rest (10 * a + b) := by
  have h2 : mapRes (takeN 2) parseU32 (digitChar a :: digitChar b :: rest) =
      .ok rest (10 * a + b) := by
    rw [mapRes, takeN_cons2]
    simp only [parseU32_two a ha b hb]
  simp only [mm, altRun, h2]

theorem parseU32_four : ∀ a < 10, ∀ b < 10, ∀ c < 10, ∀ d < 10,
    parseU32 [digitChar a, digitChar b, digitChar c, digitChar d] =
      .ok (1000 * a + 100 * b + 10 * c + d) := by decide

theorem y4_digits4 (a b c d : Nat) (ha : a < 10) (hb : b < 10) (hc : c < 10)
    (hd : d < 10) (rest : Input) :
    y4 (digitChar a :: digitChar b :: digitChar c :: digitChar d :: rest) =
      .ok rest (1000 * a + 100 * b + 10 * c + d) := by
  rw [y4, mapRes, takeN_cons4]
  simp only [parseU32_four a ha b hb c hc d hd]

theorem sep_slash (rest : Input) :
    numeric_date_parts_separator (['/'] ++ rest) = .ok rest () := rfl

theorem sep_dash (rest : Input) :
    numeric_date_parts_separator (['-'] ++ rest) = .ok rest () := rfl

theorem sep_dot (rest : Input) :
    numeric_date_parts_separator (['.'] ++ rest) = .ok rest () := rfl

theorem tagC_head_ne (t c : Char) (rest : Input) (h : ¬ c = t) :
    tagC [t] (c :: rest) = .error (.Nom (c :: rest) .Tag) := by
  have hc : (c :: rest).take (List.length [t]) = [c] := by
    simp [List.take_succ_cons]
  rw [tagC, hc, if_neg (by simp [h])]

theorem spacetab_cases (c : Char) (h : isSpaceTab c = true) :
    c = ' ' ∨ c = '\t' := by
  simpa [isSpaceTab] using h

theorem takeWhile_spacetab_append (s rest : Input)
    (hall : ∀ c ∈ s, isSpaceTab c = true)
    (hrest : ∀ c, rest.head? = some c → isSpaceTab c = false) :
    (s ++ rest).takeWhile isSpaceTab = s ∧
      (s ++ rest).dropWhile isSpaceTab = rest := by
  induction s with
  | nil =>
    simp only [List.nil_append]
    cases rest with
    | nil => simp
    | cons c t =>
      have hc := hrest c rfl
      simp [List.takeWhile_cons, List.dropWhile_cons, hc]
  | cons c s ih =>
    have hc : isSpaceTab c = true := hall c (by simp)
    have ih2 := ih (fun x hx => hall x (by simp [hx]))
    simp [List.takeWhile_cons, List.dropWhile_cons, hc, ih2.1, ih2.2]

theorem space1_run (s rest : Input) (hne : s ≠ [])
    (hall : ∀ c ∈ s, isSpaceTab c = true)
    (hrest : ∀ c, rest.head? = some c → isSpaceTab c = false) :
    space1 (s ++ rest) = .ok rest s := by
  have htw := takeWhile_spacetab_append s rest hall hrest
  rw [space1, htw.1, htw.2, if_neg hne]

/-- The separator strings accepted by numeric_date_parts_separator: one of
the three one-character tags, or a nonempty run of space and tab
characters (what nom space1 accepts). -/
def IsSep (s : Input) : Prop :=
  s = ['/'] ∨ s = ['-'] ∨ s = ['.'] ∨ (s ≠ [] ∧ ∀ c ∈ s, isSpaceTab c = true)

theorem sep_spacetab (s rest : Input) (hne : s ≠ [])
    (hall : ∀ c ∈ s, isSpaceTab c = true)
    (hrest : ∀ c, rest.head? = some c → isSpaceTab c = false) :
    numeric_date_parts_separator (s ++ rest) = .ok rest () := by
  obtain ⟨c, s2, rfl⟩ : ∃ c s2, s = c :: s2 := by
    cases s with
    | nil => exact absurd rfl hne
    | cons c s2 => exact ⟨c, s2, rfl⟩
  have hc : isSpaceTab c = true := hall c (by simp)
  have h1 : tagC ['/'] (c :: (s2 ++ rest)) =
      .error (.Nom (c :: (s2 ++ rest)) .Tag) := by
    rcases spacetab_cases c hc with rfl | rfl <;>
      exact tagC_head_ne _ _ _ (by decide)
  have h2 : tagC ['-'] (c :: (s2 ++ rest)) =
      .error (.Nom (c :: (s2 ++ rest)) .Tag) := by
    rcases spacetab_cases c hc with rfl | rfl <;>
      exact tagC_head_ne _ _ _ (by decide)
  have h3 : tagC ['.'] (c :: (s2 ++ rest)) =
      .error (.Nom (c :: (s2 ++ rest)) .Tag) := by
    rcases spacetab_cases c hc with rfl | rfl <;>
      exact tagC_head_ne _ _ _ (by decide)
  have h4 : space1 (c :: (s2 ++ rest)) = .ok rest (c :: s2) := by
    simpa using space1_run (c :: s2) rest hne hall hrest
  simp only [numeric_date_parts_separator, altRun, altInner, List.cons_append,
    h1, h2, h3, h4, PErr.orUse]

theorem sep_consumes (s rest : Input) (hs : IsSep s)
    (hrest : ∀ c, rest.head? = some c → isSpaceTab c = false) :
    numeric_date_parts_separator (s ++ rest) = .ok rest () := by
  rcases hs with rfl | rfl | rfl | ⟨hne, hall⟩
  · exact sep_slash rest
  · exact sep_dash rest
  · exact sep_dot rest
  · exact sep_spacetab s rest hne hall hrest

theorem digit_head_not_spacetab (a : Nat) (ha : a < 10) (tail : Input) :
    ∀ c, (digitChar a :: tail).head? = some c → isSpaceTab c = false := by
  intro c hc
  simp only [List.head?_cons, Option.some.injEq] at hc
  subst hc
  exact digitChar_not_spacetab a ha

theorem dd_mm_y4_fields (s1 s2 : Input) (hs1 : IsSep s1) (hs2 : IsSep s2)
    (dh dl mh ml a1 a2 a3 a4 : Nat)
    (h1 : dh < 10) (h2 : dl < 10) (h3 : mh < 10) (h4 : ml < 10)
    (h5 : a1 < 10) (h6 : a2 < 10) (h7 : a3 < 10) (h8 : a4 < 10)
    (hd1 : 1 ≤ 10 * dh + dl) (hd2 : 10 * dh + dl ≤ 31)
    (hm1 : 1 ≤ 10 * mh + ml) (hm2 : 10 * mh + ml ≤ 12) (rest : Input) :
    dd_mm_y4 (digitChar dh :: digitChar dl ::
        (s1 ++ (digitChar mh :: digitChar ml ::
          (s2 ++ (digitChar a1 :: digitChar a2 :: digitChar a3 ::
            digitChar a4 :: rest))))) =
      .ok rest (fromYmdOpt (u32AsI32 (1000 * a1 + 100 * a2 + 10 * a3 + a4))
        (10 * mh + ml) (10 * dh + dl)) := by
  have hdd := dd_digits2 dh dl h1 h2
    (s1 ++ (digitChar mh :: digitChar ml ::
      (s2 ++ (digitChar a1 :: digitChar a2 :: digitChar a3 ::
        digitChar a4 :: rest))))
  rw [if_neg (by omega)] at hdd
  have hsep1 := sep_consumes s1
    (digitChar mh :: digitChar ml ::
      (s2 ++ (digitChar a1 :: digitChar a2 :: digitChar a3 ::
        digitChar a4 :: rest)))
    hs1 (digit_head_not_spacetab mh h3 _)
  have hmm := mm_digits2 mh ml h3 h4
    (s2 ++ (digitChar a1 :: digitChar a2 :: digitChar a3 :: digitChar a4 :: rest))
  rw [if_neg (by omega)] at hmm
  have hsep2 := sep_consumes s2
    (digitChar a1 :: digitChar a2 :: digitChar a3 :: digitChar a4 :: rest)
    hs2 (digit_head_not_spacetab a1 h5 _)
  have hy4 := y4_digits4 a1 a2 a3 a4 h5 h6 h7 h8 rest
  simp only [dd_mm_y4, hdd, hsep1, hmm, hsep2, hy4]

theorem mm_dd_y4_fields (s1 s2 : Input) (hs1 : IsSep s1) (hs2 : IsSep s2)
    (mh ml dh dl a1 a2 a3 a4 : Nat)
    (h1 : mh < 10) (h2 : ml < 10) (h3 : dh < 10) (h4 : dl < 10)
    (h5 : a1 < 10) (h6 : a2 < 10) (h7 : a3 < 10) (h8 : a4 < 10)
    (hm1 : 1 ≤ 10 * mh + ml) (hm2 : 10 * mh + ml ≤ 12)
    (hd1 : 1 ≤ 10 * dh + dl) (hd2 : 10 * dh + dl ≤ 31) (rest : Input) :
    mm_dd_y4 (digitChar mh :: digitChar ml ::
        (s1 ++ (digitChar dh :: digitChar dl ::
          (s2 ++ (digitChar a1 :: digitChar a2 :: digitChar a3 ::
            digitChar a4 :: rest))))) =
      .ok rest (fromYmdOpt (u32AsI32 (1000 * a1 + 100 * a2 + 10 * a3 + a4))
        (10 * mh + ml) (10 * dh + dl)) := by
  have hmm := mm_digits2 mh ml h1 h2
    (s1 ++ (digitChar dh :: digitChar dl ::
      (s2 ++ (digitChar a1 :: digitChar a2 :: digitChar a3 ::
        digitChar a4 :: rest))))
  rw [if_neg (by omega)] at hmm
  have hsep1 := sep_consumes s1
    (digitChar dh :: digitChar dl ::
      (s2 ++ (digitChar a1 :: digitChar a2 :: digitChar a3 ::
        digitChar a4 :: rest)))
    hs1 (digit_head_not_spacetab dh h3 _)
  have hdd := dd_digits2 dh dl h3 h4
    (s2 ++ (digitChar a1 :: digitChar a2 :: digitChar a3 :: digitChar a4 :: rest))
  rw [if_neg (by omega)] at hdd
  have hsep2 := sep_consumes s2
    (digitChar a1 :: digitChar a2 :: digitChar a3 :: digitChar a4 :: rest)
    hs2 (digit_head_not_spacetab a1 h5 _)
  have hy4 := y4_digits4 a1 a2 a3 a4 h5 h6 h7 h8 rest
  simp only [mm_dd_y4, hmm, hsep1, hdd, hsep2, hy4]

theorem y4_mm_dd_fields (s1 s2 : Input) (hs1 : IsSep s1) (hs2 : IsSep s2)
    (a1 a2 a3 a4 mh ml dh dl : Nat)
    (h1 : a1 < 10) (h2 : a2 < 10) (h3 : a3 < 10) (h4 : a4 < 10)
    (h5 : mh < 10) (h6 : ml < 10) (h7 : dh < 10) (h8 : dl < 10)
    (hm1 : 1 ≤ 10 * mh + ml) (hm2 : 10 * mh + ml ≤ 12)
    (hd1 : 1 ≤ 10 * dh + dl) (hd2 : 10 * dh + dl ≤ 31) (rest : Input) :
    y4_mm_dd (digitChar a1 :: digitChar a2 :: digitChar a3 :: digitChar a4 ::
        (s1 ++ (digitChar mh :: digitChar ml ::
          (s2 ++ (digitChar dh :: digitChar dl :: rest))))) =
      .ok rest (fromYmdOpt (u32AsI32 (1000 * a1 + 100 * a2 + 10 * a3 + a4))
        (10 * mh + ml) (10 * dh + dl)) := by
  have hy4 := y4_digits4 a1 a2 a3 a4 h1 h2 h3 h4
    (s1 ++ (digitChar mh :: digitChar ml ::
      (s2 ++ (digitChar dh :: digitChar dl :: rest))))
  have hsep1 := sep_consumes s1
    (digitChar mh :: digitChar ml :: (s2 ++ (digitChar dh :: digitChar dl :: rest)))
    hs1 (digit_head_not_spacetab mh h5 _)
  have hmm := mm_digits2 mh ml h5 h6 (s2 ++ (digitChar dh :: digitChar dl :: rest))
  rw [if_neg (by omega)] at hmm
  have hsep2 := sep_consumes s2 (digitChar dh :: digitChar dl :: rest)
    hs2 (digit_head_not_spacetab dh h7 _)
  have hdd := dd_digits2 dh dl h7 h8 rest
  rw [if_neg (by omega)] at hdd
  simp only [y4_mm_dd, hy4, hsep1, hmm, hsep2, hdd]

theorem dd_mm_fields (s1 : Input) (hs1 : IsSep s1) (dh dl mh ml : Nat)
    (h1 : dh < 10) (h2 : dl < 10) (h3 : mh < 10) (h4 : ml < 10)
    (hd1 : 1 ≤ 10 * dh + dl) (hd2 : 10 * dh + dl ≤ 31)
    (hm1 : 1 ≤ 10 * mh + ml) (hm2 : 10 * mh + ml ≤ 12) (rest : Input) :
    dd_mm (digitChar dh :: digitChar dl ::
        (s1 ++ (digitChar mh :: digitChar ml :: rest))) =
      .ok rest (10 * dh + dl, 10 * mh + ml) := by
  have hdd := dd_digits2 dh dl h1 h2 (s1 ++ (digitChar mh :: digitChar ml :: rest))
  rw [if_neg (by omega)] at hdd
  have hsep1 := sep_consumes s1 (digitChar mh :: digitChar ml :: rest)
    hs1 (digit_head_not_spacetab mh h3 _)
  have hmm := mm_digits2 mh ml h3 h4 rest
  rw [if_neg (by omega)] at hmm
  simp only [dd_mm, hdd, hsep1, hmm]

theorem mm_dd_fields (s1 : Input) (hs1 : IsSep s1) (mh ml dh dl : Nat)
    (h1 : mh < 10) (h2 : ml < 10) (h3 : dh < 10) (h4 : dl < 10)
    (hm1 : 1 ≤ 10 * mh + ml) (hm2 : 10 * mh + ml ≤ 12)
    (hd1 : 1 ≤ 10 * dh + dl) (hd2 : 10 * dh + dl ≤ 31) (rest : Input) :
    mm_dd (digitChar mh :: digitChar ml ::
        (s1 ++ (digitChar dh :: digitChar dl :: rest))) =
      .ok rest (10 * mh + ml, 10 * dh + dl) := by
  have hmm := mm_digits2 mh ml h1 h2 (s1 ++ (digitChar dh :: digitChar dl :: rest))
  rw [if_neg (by omega)] at hmm
  have hsep1 := sep_consumes s1 (digitChar dh :: digitChar dl :: rest)
    hs1 (digit_head_not_spacetab dh h3 _)
  have hdd := dd_digits2 dh dl h3 h4 rest
  rw [if_neg (by omega)] at hdd
  simp only [mm_dd, hmm, hsep1, hdd]

theorem dd_mm_only_fields (now : NaiveDate) (s1 : Input) (hs1 : IsSep s1)
    (dh dl mh ml : Nat)
    (h1 : dh < 10) (h2 : dl < 10) (h3 : mh < 10) (h4 : ml < 10)
    (hd1 : 1 ≤ 10 * dh + dl) (hd2 : 10 * dh + dl ≤ 31)
    (hm1 : 1 ≤ 10 * mh + ml) (hm2 : 10 * mh + ml ≤ 12) (rest : Input) :
    dd_mm_only now (digitChar dh :: digitChar dl ::
        (s1 ++ (digitChar mh :: digitChar ml :: rest))) =
      .ok rest (fromYmdOpt (yearOf now) (10 * mh + ml) (10 * dh + dl)) := by
  have h := dd_mm_fields s1 hs1 dh dl mh ml h1 h2 h3 h4 hd1 hd2 hm1 hm2 rest
  simp only [dd_mm_only, h]

theorem mm_dd_only_fields (now : NaiveDate) (s1 : Input) (hs1 : IsSep s1)
    (mh ml dh dl : Nat)
    (h1 : mh < 10) (h2 : ml < 10) (h3 : dh < 10) (h4 : dl < 10)
    (hm1 : 1 ≤ 10 * mh + ml) (hm2 : 10 * mh + ml ≤ 12)
    (hd1 : 1 ≤ 10 * dh + dl) (hd2 : 10 * dh + dl ≤ 31) (rest : Input) :
    mm_dd_only now (digitChar mh :: digitChar ml ::
        (s1 ++ (digitChar dh :: digitChar dl :: rest))) =
      .ok rest (fromYmdOpt (yearOf now) (10 * mh + ml) (10 * dh + dl)) := by
  have h := mm_dd_fields s1 hs1 mh ml dh dl h1 h2 h3 h4 hm1 hm2 hd1 hd2 rest
  simp only [mm_dd_only, h]


theorem en_yesterday_opt_some (now : NaiveDate) (input rest : Input)
    (v : Option NaiveDate) (h : en.yesterday_opt now input = .ok rest v) :
    v.isSome = true := by
  cases hy : en.yesterday now input with
  | ok r d =>
    simp only [en.yesterday_opt, hy] at h
    injection h with h1 h2
    rw [← h2]
    rfl
  | error e =>
    simp only [en.yesterday_opt, hy] at h
    exact PResult.noConfusion h

theorem en_tomorrow_opt_some (now : NaiveDate) (input rest : Input)
    (v : Option NaiveDate) (h : en.tomorrow_opt now input = .ok rest v) :
    v.isSome = true := by
  cases hy : en.tomorrow now input with
  | ok r d =>
    simp only [en.tomorrow_opt, hy] at h
    injection h with h1 h2
    rw [← h2]
    rfl
  | error e =>
    simp only [en.tomorrow_opt, hy] at h
    exact PResult.noConfusion h

theorem en_weekday_opt_some (now : NaiveDate) (input rest : Input)
    (v : Option NaiveDate)
    (h : en.current_named_weekday_only_opt now input = .ok rest v) :
    v.isSome = true := by
  cases hy : en.current_named_weekday_only now input with
  | ok r d =>
    simp only [en.current_named_weekday_only_opt, hy] at h
    injection h with h1 h2
    rw [← h2]
    rfl
  | error e =>
    simp only [en.current_named_weekday_only_opt, hy] at h
    exact PResult.noConfusion h

theorem bundle_dmy_none_numeric (now : NaiveDate) (input rest : Input)
    (h : en.bundle_dmy now input = .ok rest none) :
    dd_mm_y4 input = .ok rest none ∨ dd_mm_only now input = .ok rest none ∨
      dd_only now input = .ok rest none := by
  simp only [en.bundle_dmy, altRun] at h
  cases h1 : dd_mm_y4 input with
  | ok r v =>
    rw [h1] at h
    injection h with ha hb
    subst ha; subst hb
    exact Or.inl rfl
  | error e1 =>
    rw [h1] at h
    simp only [altInner] at h
    cases h2 : dd_mm_only now input with
    | ok r v =>
      rw [h2] at h
      injection h with ha hb
      subst ha; subst hb
      exact Or.inr (Or.inl rfl)
    | error e2 =>
      rw [h2] at h
      simp only [altInner] at h
      cases h3 : dd_only now input with
      | ok r v =>
        rw [h3] at h
        injection h with ha hb
        subst ha; subst hb
        exact Or.inr (Or.inr rfl)
      | error e3 =>
        rw [h3] at h
        simp only [altInner] at h
        cases h4 : en.yesterday_opt now input with
        | ok r v =>
          rw [h4] at h
          injection h with ha hb
          subst ha; subst hb
          have hs := en_yesterday_opt_some now input r none h4
          simp at hs
        | error e4 =>
          rw [h4] at h
          simp only [altInner] at h
          cases h5 : en.tomorrow_opt now input with
          | ok r v =>
            rw [h5] at h
            injection h with ha hb
            subst ha; subst hb
            have hs := en_tomorrow_opt_some now input r none h5
            simp at hs
          | error e5 =>
            rw [h5] at h
            simp only [altInner] at h
            cases h6 : en.current_named_weekday_only_opt now input with
            | ok r v =>
              rw [h6] at h
              injection h with ha hb
              subst ha; subst hb
              have hs := en_weekday_opt_some now input r none h6
              simp at hs
            | error e6 =>
              rw [h6] at h
              simp only [altInner] at h
              exact PResult.noConfusion h

/-! ### Concrete inputs used by the claim theorems and witnesses -/

def inp2024_13_06 : Input := "2024/13/06".toList

def plusNine : Input := "+9".toList

def plus123 : Input := "+123".toList

def inp0042 : Input := "0042".toList

def inp10001 : Input := "10001".toList

def inp42short : Input := "42".toList

def inpAbcd : Input := "abcd".toList

def inp31_02_2024 : Input := "31-02-2024".toList

def inp32_02_2024 : Input := "32-02-2024".toList

def inpDash : Input := "13-06-2024".toList

def inpSpTab : Input := "13    06\t2024".toList

def inpNl : Input := "13\n06-2024".toList

def nlTail : Input := "\n06-2024".toList

def inp09 : Input := "09".toList

def xxInp : Input := "xx".toList

def mondayInp : Input := "Monday".toList

def ydayInp : Input := "Yesterday".toList

/-! ### Claim theorems -/

/-- C4: for every day number written as a string of one or two decimal
digits, dd succeeds with that value exactly when it lies in 1..=31, and on
such digit strings with value 0 or above 31 it fails with DayOutOfRange. -/
theorem dayFieldRange : ∀ a < 10, ∀ b < 10,
    (dd [digitChar a] =
      if 1 ≤ a ∧ a ≤ 31 then .ok [] a else .error .DayOutOfRange) ∧
    (dd [digitChar a, digitChar b] =
      if 1 ≤ 10 * a + b ∧ 10 * a + b ≤ 31 then .ok [] (10 * a + b)
      else .error .DayOutOfRange) := by decide

/-- Witness for C4 at the concrete digit strings 09 and 42. -/
theorem dayFieldRangeWitness :
    dd [digitChar 0, digitChar 9] = .ok [] 9 ∧
    dd [digitChar 4, digitChar 2] = .error .DayOutOfRange := by
  constructor
  · have h := (dayFieldRange 0 (by decide) 9 (by decide)).2
    simpa using h
  · have h := (dayFieldRange 4 (by decide) 2 (by decide)).2
    simpa using h

/-- C5: for every month number written as a string of one or two decimal
digits, mm succeeds with that value exactly when it lies in 1..=12 and
otherwise fails with MonthOutOfRange; in particular the year-month-day
composite fails with MonthOutOfRange on 2024/13/06. -/
theorem monthFieldRange :
    (∀ a < 10, ∀ b < 10,
      (mm [digitChar a] =
        if 1 ≤ a ∧ a ≤ 12 then .ok [] a else .error .MonthOutOfRange) ∧
      (mm [digitChar a, digitChar b] =
        if 1 ≤ 10 * a + b ∧ 10 * a + b ≤ 12 then .ok [] (10 * a + b)
        else .error .MonthOutOfRange)) ∧
    y4_mm_dd inp2024_13_06 = .error .MonthOutOfRange := by decide

/-- Witness for C5 at the concrete digit strings 09 and 13. -/
theorem monthFieldRangeWitness :
    mm [digitChar 0, digitChar 9] = .ok [] 9 ∧
    mm [digitChar 1, digitChar 3] = .error .MonthOutOfRange := by
  constructor
  · have h := (monthFieldRange.1 0 (by decide) 9 (by decide)).2
    simpa using h
  · have h := (monthFieldRange.1 1 (by decide) 3 (by decide)).2
    simpa using h

/-- C9: the numeric field recognizers accept a leading plus sign because
the underlying unsigned-integer conversion does: dd on the non-digit input
+9 succeeds with value 9 and empty remainder, and y4 on +123 succeeds with
value 123; neither is rejected with an integer-parse failure. -/
theorem plusSignAccepted :
    (∃ c ∈ plusNine, isDigitChar c = false) ∧
    (∃ c ∈ plus123, isDigitChar c = false) ∧
    dd plusNine = .ok [] 9 ∧
    y4 plus123 = .ok [] 123 := by decide

/-- Counterexample to C6 as stated: +123 offers four characters that are
not all decimal digits, yet y4 succeeds with value 123 instead of failing
with a generic parse failure. -/
theorem yearFieldNonDigitCex :
    plus123.length = 4 ∧ plus123.all isDigitChar = false ∧
    y4 plus123 = .ok [] 123 := by decide

/-- C6 (amended): y4 consumes exactly four characters with their numeric
value and no range restriction (leading zeros included, extra characters
left as remainder); it fails with a generic Eof failure when fewer than
four characters are available, and with a generic integer-parse failure
when the four consumed characters do not convert as an unsigned integer
(the conversion also accepts a leading plus sign). -/
theorem yearFieldContract :
    (∀ a < 10, ∀ b < 10, ∀ c < 10, ∀ d < 10, ∀ rest : Input,
      y4 (digitChar a :: digitChar b :: digitChar c :: digitChar d :: rest) =
        .ok rest (1000 * a + 100 * b + 10 * c + d)) ∧
    (∀ input : Input, input.length < 4 → y4 input = .error (.Nom input .Eof)) ∧
    (∀ input : Input, ∀ e : IntErr, ¬ input.length < 4 →
      parseU32 (input.take 4) = .error e →
      y4 input = .error (.ParseIntError input .MapRes e)) ∧
    y4 inp0042 = .ok [] 42 ∧ y4 inp10001 = .ok ['1'] 1000 := by
  refine ⟨?_, ?_, ?_, by decide, by decide⟩
  · intro a ha b hb c hc d hd rest
    exact y4_digits4 a b c d ha hb hc hd rest
  · intro input h
    simp only [y4, mapRes, takeN, if_pos h]
  · intro input e h hp
    simp only [y4, mapRes, takeN, if_neg h, hp]

/-- Witness for C6 applying each universally quantified part at a concrete
input. -/
theorem yearFieldContractWitness :
    y4 (digitChar 2 :: digitChar 0 :: digitChar 2 :: digitChar 4 :: [']']) =
      .ok [']'] 2024 ∧
    y4 inp42short = .error (.Nom inp42short .Eof) ∧
    y4 inpAbcd = .error (.ParseIntError inpAbcd .MapRes .InvalidDigit) := by
  refine ⟨?_, ?_, ?_⟩
  · have h := yearFieldContract.1 2 (by decide) 0 (by decide) 2 (by decide)
      4 (by decide) [']']
    simpa using h
  · exact yearFieldContract.2.1 inp42short (by decide)
  · exact yearFieldContract.2.2.1 inpAbcd .InvalidDigit (by decide) (by decide)

/-- C1: on day-month-year input whose day and month fields pass their
range checks but whose combination is not a real calendar date, dd_mm_y4
succeeds and returns an absent date; while any input starting with a
two-digit day field outside 1..=31 fails with DayOutOfRange regardless of
what follows, i.e. before any calendar assembly. -/
theorem calendarExistenceAsymmetry :
    (∀ s1 s2 : Input, IsSep s1 → IsSep s2 →
      ∀ dh dl mh ml a1 a2 a3 a4 : Nat,
      dh < 10 → dl < 10 → mh < 10 → ml < 10 →
      a1 < 10 → a2 < 10 → a3 < 10 → a4 < 10 →
      1 ≤ 10 * dh + dl → 10 * dh + dl ≤ 31 →
      1 ≤ 10 * mh + ml → 10 * mh + ml ≤ 12 →
      fromYmdOpt (u32AsI32 (1000 * a1 + 100 * a2 + 10 * a3 + a4))
        (10 * mh + ml) (10 * dh + dl) = none →
      ∀ rest : Input,
        dd_mm_y4 (digitChar dh :: digitChar dl ::
          (s1 ++ (digitChar mh :: digitChar ml ::
            (s2 ++ (digitChar a1 :: digitChar a2 :: digitChar a3 ::
              digitChar a4 :: rest))))) = .ok rest none) ∧
    (∀ a b : Nat, a < 10 → b < 10 → (10 * a + b = 0 ∨ 31 < 10 * a + b) →
      ∀ rest : Input,
        dd_mm_y4 (digitChar a :: digitChar b :: rest) =
          .error .DayOutOfRange) := by
  constructor
  · intro s1 s2 hs1 hs2 dh dl mh ml a1 a2 a3 a4 h1 h2 h3 h4 h5 h6 h7 h8
      hd1 hd2 hm1 hm2 hnone rest
    rw [dd_mm_y4_fields s1 s2 hs1 hs2 dh dl mh ml a1 a2 a3 a4
      h1 h2 h3 h4 h5 h6 h7 h8 hd1 hd2 hm1 hm2 rest, hnone]
  · intro a b ha hb hout rest
    have hdd := dd_digits2 a b ha hb rest
    rw [if_pos hout] at hdd
    simp only [dd_mm_y4, hdd]

/-- Witness for C1 at the spec's example inputs 31-02-2024 (absent date)
and 32-02-2024 (DayOutOfRange). -/
theorem calendarExistenceAsymmetryWitness :
    dd_mm_y4 inp31_02_2024 = .ok [] none ∧
    dd_mm_y4 inp32_02_2024 = .error .DayOutOfRange := by
  constructor
  · have h := calendarExistenceAsymmetry.1 ['-'] ['-']
      (Or.inr (Or.inl rfl)) (Or.inr (Or.inl rfl)) 3 1 0 2 2 0 2 4
      (by decide) (by decide) (by decide) (by decide) (by decide) (by decide)
      (by decide) (by decide) (by decide) (by decide) (by decide) (by decide)
      (by decide) ([] : Input)
    have he : inp31_02_2024 = digitChar 3 :: digitChar 1 ::
        (['-'] ++ (digitChar 0 :: digitChar 2 ::
          (['-'] ++ (digitChar 2 :: digitChar 0 :: digitChar 2 ::
            digitChar 4 :: ([] : Input))))) := by decide
    rw [he]
    exact h
  · have h := calendarExistenceAsymmetry.2 3 2 (by decide) (by decide)
      (Or.inr (by decide)) (inp32_02_2024.drop 2)
    have he : inp32_02_2024 = digitChar 3 :: digitChar 2 ::
        inp32_02_2024.drop 2 := by decide
    rw [he]
    exact h

/-- Counterexample to C7 as stated: the newline character is whitespace,
but replacing the first separator of the accepted input 13-06-2024 with
the one-character whitespace run consisting of a newline makes dd_mm_y4
fail instead of producing the same date, because the separator parser only
accepts runs of space and tab. -/
theorem sepInterchangeCex :
    Char.isWhitespace '\n' = true ∧
    dd_mm_y4 inpDash = .ok [] (some 19887) ∧
    dd_mm_y4 inpNl = .error (.Nom nlTail .Space) := by decide

/-- C7 (amended): for every composite numeric parser and every pair of
accepted separators drawn from the slash, dash and dot tags or nonempty
runs of space and tab characters, the parse result (date and remainder)
does not depend on which separators appear between the fields. -/
theorem sepInterchange :
    ∀ s1 s2 : Input, IsSep s1 → IsSep s2 →
    ∀ dh dl mh ml a1 a2 a3 a4 : Nat,
    dh < 10 → dl < 10 → mh < 10 → ml < 10 →
    a1 < 10 → a2 < 10 → a3 < 10 → a4 < 10 →
    1 ≤ 10 * dh + dl → 10 * dh + dl ≤ 31 →
    1 ≤ 10 * mh + ml → 10 * mh + ml ≤ 12 →
    ∀ now : NaiveDate, ∀ rest : Input,
    dd_mm_y4 (digitChar dh :: digitChar dl ::
        (s1 ++ (digitChar mh :: digitChar ml ::
          (s2 ++ (digitChar a1 :: digitChar a2 :: digitChar a3 ::
            digitChar a4 :: rest))))) =
      .ok rest (fromYmdOpt (u32AsI32 (1000 * a1 + 100 * a2 + 10 * a3 + a4))
        (10 * mh + ml) (10 * dh + dl)) ∧
    mm_dd_y4 (digitChar mh :: digitChar ml ::
        (s1 ++ (digitChar dh :: digitChar dl ::
          (s2 ++ (digitChar a1 :: digitChar a2 :: digitChar a3 ::
            digitChar a4 :: rest))))) =
      .ok rest (fromYmdOpt (u32AsI32 (1000 * a1 + 100 * a2 + 10 * a3 + a4))
        (10 * mh + ml) (10 * dh + dl)) ∧
    y4_mm_dd (digitChar a1 :: digitChar a2 :: digitChar a3 :: digitChar a4 ::
        (s1 ++ (digitChar mh :: digitChar ml ::
          (s2 ++ (digitChar dh :: digitChar dl :: rest))))) =
      .ok rest (fromYmdOpt (u32AsI32 (1000 * a1 + 100 * a2 + 10 * a3 + a4))
        (10 * mh + ml) (10 * dh + dl)) ∧
    dd_mm_only now (digitChar dh :: digitChar dl ::
        (s1 ++ (digitChar mh :: digitChar ml :: rest))) =
      .ok rest (fromYmdOpt (yearOf now) (10 * mh + ml) (10 * dh + dl)) ∧
    mm_dd_only now (digitChar mh :: digitChar ml ::
        (s1 ++ (digitChar dh :: digitChar dl :: rest))) =
      .ok rest (fromYmdOpt (yearOf now) (10 * mh + ml) (10 * dh + dl)) := by
  intro s1 s2 hs1 hs2 dh dl mh ml a1 a2 a3 a4 h1 h2 h3 h4 h5 h6 h7 h8
    hd1 hd2 hm1 hm2 now rest
  refine ⟨dd_mm_y4_fields s1 s2 hs1 hs2 dh dl mh ml a1 a2 a3 a4
      h1 h2 h3 h4 h5 h6 h7 h8 hd1 hd2 hm1 hm2 rest,
    mm_dd_y4_fields s1 s2 hs1 hs2 mh ml dh dl a1 a2 a3 a4
      h3 h4 h1 h2 h5 h6 h7 h8 hm1 hm2 hd1 hd2 rest,
    y4_mm_dd_fields s1 s2 hs1 hs2 a1 a2 a3 a4 mh ml dh dl
      h5 h6 h7 h8 h3 h4 h1 h2 hm1 hm2 hd1 hd2 rest,
    dd_mm_only_fields now s1 hs1 dh dl mh ml h1 h2 h3 h4 hd1 hd2 hm1 hm2 rest,
    mm_dd_only_fields now s1 hs1 mh ml dh dl h3 h4 h1 h2 hm1 hm2 hd1 hd2 rest⟩

/-- Witness for C7: the dash-separated and the space-and-tab-separated
renderings of 13 June 2024 parse to the same date with empty remainder. -/
theorem sepInterchangeWitness :
    dd_mm_y4 inpDash = .ok [] (some 19887) ∧
    dd_mm_y4 inpSpTab = .ok [] (some 19887) := by
  constructor
  · have h := (sepInterchange ['-'] ['-'] (Or.inr (Or.inl rfl))
      (Or.inr (Or.inl rfl)) 1 3 0 6 2 0 2 4
      (by decide) (by decide) (by decide) (by decide) (by decide) (by decide)
      (by decide) (by decide) (by decide) (by decide) (by decide) (by decide)
      0 ([] : Input)).1
    have he : inpDash = digitChar 1 :: digitChar 3 ::
        (['-'] ++ (digitChar 0 :: digitChar 6 ::
          (['-'] ++ (digitChar 2 :: digitChar 0 :: digitChar 2 ::
            digitChar 4 :: ([] : Input))))) := by decide
    rw [he, h]
    decide
  · have h := (sepInterchange [' ', ' ', ' ', ' '] ['\t'] (Or.inr (Or.inr
      (Or.inr (by decide)))) (Or.inr (Or.inr (Or.inr (by decide))))
      1 3 0 6 2 0 2 4
      (by decide) (by decide) (by decide) (by decide) (by decide) (by decide)
      (by decide) (by decide) (by decide) (by decide) (by decide) (by decide)
      0 ([] : Input)).1
    have he : inpSpTab = digitChar 1 :: digitChar 3 ::
        ([' ', ' ', ' ', ' '] ++ (digitChar 0 :: digitChar 6 ::
          (['\t'] ++ (digitChar 2 :: digitChar 0 :: digitChar 2 ::
            digitChar 4 :: ([] : Input))))) := by decide
    rw [he, h]
    decide

/-- C2: when every alternative of bundle_dmy fails, the bundle's error is
exactly the error of the last-tried alternative, the weekday parser; the
errors of all earlier alternatives are discarded. -/
theorem bundleLastErrorWins (now : NaiveDate) (input : Input)
    (e1 e2 e3 e4 e5 e6 : PErr)
    (h1 : dd_mm_y4 input = .error e1)
    (h2 : dd_mm_only now input = .error e2)
    (h3 : dd_only now input = .error e3)
    (h4 : en.yesterday_opt now input = .error e4)
    (h5 : en.tomorrow_opt now input = .error e5)
    (h6 : en.current_named_weekday_only_opt now input = .error e6) :
    en.bundle_dmy now input = .error e6 := by
  simp only [en.bundle_dmy, altRun, altInner, h1, h2, h3, h4, h5, h6,
    PErr.orUse, PErr.append]

/-- Witness for C2 on the input xx, on which every alternative fails: the
bundle reports the weekday parser's tag failure, not the numeric parsers'
integer-parse failures. -/
theorem bundleLastErrorWinsWitness :
    en.bundle_dmy 0 xxInp = .error (.Nom xxInp .Tag) :=
  bundleLastErrorWins 0 xxInp
    (.ParseIntError xxInp .MapRes .InvalidDigit)
    (.ParseIntError xxInp .MapRes .InvalidDigit)
    (.ParseIntError xxInp .MapRes .InvalidDigit)
    (.Nom xxInp .Tag) (.Nom xxInp .Tag) (.Nom xxInp .Tag)
    (by decide) (by decide) (by decide) (by decide) (by decide) (by decide)

/-- C3: whenever the most specific alternative dd_mm_y4 succeeds, both the
English day-first bundle and the Russian bundle return exactly its result;
and whenever dd_mm_y4 and dd_mm_only fail but dd_only succeeds, both
bundles return dd_only's result. -/
theorem bundleFirstSuccessWins :
    (∀ now : NaiveDate, ∀ input rest : Input, ∀ v : Option NaiveDate,
      dd_mm_y4 input = .ok rest v →
      en.bundle_dmy now input = .ok rest v ∧
        ru.bundle now input = .ok rest v) ∧
    (∀ now : NaiveDate, ∀ input rest : Input, ∀ v : Option NaiveDate,
      ∀ e1 e2 : PErr,
      dd_mm_y4 input = .error e1 → dd_mm_only now input = .error e2 →
      dd_only now input = .ok rest v →
      en.bundle_dmy now input = .ok rest v ∧
        ru.bundle now input = .ok rest v) := by
  constructor
  · intro now input rest v h
    constructor <;> simp only [en.bundle_dmy, ru.bundle, altRun, h]
  · intro now input rest v e1 e2 h1 h2 h3
    constructor <;>
      simp only [en.bundle_dmy, ru.bundle, altRun, altInner, h1, h2, h3,
        PErr.orUse]

/-- Witness for C3: on 13-06-2024 both bundles return dd_mm_y4's result,
and on 09 (where the longer numeric parsers fail) both return dd_only's
result. -/
theorem bundleFirstSuccessWinsWitness :
    (en.bundle_dmy 0 inpDash = .ok [] (some 19887) ∧
      ru.bundle 0 inpDash = .ok [] (some 19887)) ∧
    (en.bundle_dmy 0 inp09 = .ok [] (some 8) ∧
      ru.bundle 0 inp09 = .ok [] (some 8)) := by
  constructor
  · exact bundleFirstSuccessWins.1 0 inpDash [] (some 19887) (by decide)
  · exact bundleFirstSuccessWins.2 0 inp09 [] (some 8)
      (.Nom [] .Space) (.Nom [] .Space) (by decide) (by decide) (by decide)

/-- C8: naive_date_for_weekday returns today shifted by exactly the
difference between the requested and the current Monday-based weekday
ordinals, staying inside the current Monday-based week without wrapping;
when today is a Thursday the requested Monday is three days before today,
and current_named_weekday_only returns exactly this date for a recognized
weekday word. -/
theorem weekdayInCurrentWeek :
    (∀ now : NaiveDate, ∀ t : Weekday,
      naive_date_for_weekday t now =
        now + ((t.toIdx : Int) - (weekdayIdx now : Int)) ∧
      now - (weekdayIdx now : Int) ≤ naive_date_for_weekday t now ∧
      naive_date_for_weekday t now ≤ now - (weekdayIdx now : Int) + 6) ∧
    (∀ now : NaiveDate, weekdayIdx now = 3 →
      naive_date_for_weekday Weekday.Mon now = now - 3) ∧
    (∀ now : NaiveDate, ∀ input rest : Input, ∀ w : Weekday,
      en.named_weekday input = .ok rest w →
      en.current_named_weekday_only now input =
        .ok rest (naive_date_for_weekday w now)) := by
  refine ⟨?_, ?_, ?_⟩
  · intro now t
    have ht : (t.toIdx : Int) ≤ 6 := by cases t <;> decide
    have ht0 : (0 : Int) ≤ (t.toIdx : Int) := Int.natCast_nonneg _
    refine ⟨rfl, ?_, ?_⟩ <;> (rw [naive_date_for_weekday]; linarith)
  · intro now h
    rw [naive_date_for_weekday, h]
    have hidx : (Weekday.Mon.toIdx : Int) = 0 := by decide
    rw [hidx]
    push_cast
    ring
  · intro now input rest w h
    simp only [en.current_named_weekday_only, mapRes, h]

/-- Witness for C8: day number 0 (1970-01-01) was a Thursday, and the
weekday word Monday then yields the date three days earlier. -/
theorem weekdayInCurrentWeekWitness :
    weekdayIdx 0 = 3 ∧
    naive_date_for_weekday Weekday.Mon 0 = 0 - 3 ∧
    en.current_named_weekday_only 0 mondayInp =
      .ok [] (naive_date_for_weekday Weekday.Mon 0) :=
  ⟨by decide, weekdayInCurrentWeek.2.1 0 (by decide),
    weekdayInCurrentWeek.2.2 0 mondayInp [] Weekday.Mon (by decide)⟩

/-- C10: the relative-word and weekday alternatives of bundle_dmy always
produce a present date when they succeed, so a successful-but-absent
bundle result can only come from one of the numeric alternatives. -/
theorem bundleAbsentImpliesNumeric :
    (∀ now : NaiveDate, ∀ input rest : Input, ∀ v : Option NaiveDate,
      en.yesterday_opt now input = .ok rest v → v.isSome = true) ∧
    (∀ now : NaiveDate, ∀ input rest : Input, ∀ v : Option NaiveDate,
      en.tomorrow_opt now input = .ok rest v → v.isSome = true) ∧
    (∀ now : NaiveDate, ∀ input rest : Input, ∀ v : Option NaiveDate,
      en.current_named_weekday_only_opt now input = .ok rest v →
        v.isSome = true) ∧
    (∀ now : NaiveDate, ∀ input rest : Input,
      en.bundle_dmy now input = .ok rest none →
      dd_mm_y4 input = .ok rest none ∨
        dd_mm_only now input = .ok rest none ∨
        dd_only now input = .ok rest none) :=
  ⟨en_yesterday_opt_some, en_tomorrow_opt_some, en_weekday_opt_some,
    bundle_dmy_none_numeric⟩

/-- Witness for C10: the yesterday word yields a present date, and the
absent result of the bundle on 31-02-2024 indeed comes from a numeric
alternative. -/
theorem bundleAbsentImpliesNumericWitness :
    Option.isSome (some (-1 : Int)) = true ∧
    (dd_mm_y4 inp31_02_2024 = .ok [] none ∨
      dd_mm_only 0 inp31_02_2024 = .ok [] none ∨
      dd_only 0 inp31_02_2024 = .ok [] none) :=
  ⟨bundleAbsentImpliesNumeric.1 0 ydayInp [] (some (-1)) (by decide),
    bundleAbsentImpliesNumeric.2.2.2 0 inp31_02_2024 [] (by decide)⟩

end NomDateParsers
